import Mathlib

/-!
# Verification of the lavagna stroke engine

Shallow embedding of the stroke accumulation, corner-artifact correction,
finalization, depth-ordering, clear-event and canvas-resize logic of the
lavagna drawing program, together with theorems settling the specification
claims about it.

Sources embedded:
* `src/drawing.rs` — `triggers_lyon_bug`, `update`, `add_point`,
  `z_from_time`, `complete_pending_path`, `Polyline`,
  `despawn_all_completed_lines`, `ClearEvent`, `handle_clear_event`;
* `src/local_chalk.rs` — `update_pressed`;
* `lavagna_pixels/src/lib.rs` — `resize_buffer` (its collaborator
  `MutSketch::copy_from` lives in the `lavagna_core` crate, which is not part
  of the sources here, and is modelled from the spec).

Numeric conventions: the source computes stroke geometry and depth in `f32`;
the embedding idealizes `f32` arithmetic as real-number arithmetic (`ℝ`) for
the corner-check geometry and as rational arithmetic (`ℚ`) for the depth
function, and models the integer pointer coordinates as `ℤ`.  The single
place where IEEE semantics differs observably from `ℝ` — division by a zero
segment-length product, which yields NaN and hence makes every comparison
false — is modelled explicitly (see `triggers_lyon_bug`).
-/

/-! ## Geometry of the corner-artifact check (`triggers_lyon_bug`) -/

/-- Dot product of two 2-D vectors, as in `Vec2::dot` used by the source. -/
def dotp (v w : ℝ × ℝ) : ℝ := v.1 * w.1 + v.2 * w.2

/-- Squared euclidean norm, as in `Vec2::norm_squared`. -/
def sqnorm (v : ℝ × ℝ) : ℝ := dotp v v

/-- The vector from `q` to `p`, as in the source's `points[0] - points[1]`. -/
def ray (p q : ℝ × ℝ) : ℝ × ℝ := (p.1 - q.1, p.2 - q.2)

/-- `triggers_lyon_bug` from `src/drawing.rs` (lines 69–93), for the three
points `p0, p1, p2` (the source always passes exactly three points, so its
3-point length assertion is satisfied by construction here) and the stroke
radius.  The source computes
`cos_angle = ray0.dot(ray1) / (ray0.norm() * ray1.norm())` in `f32`;
when `ray0.norm() * ray1.norm()` is zero this division produces NaN and
every subsequent `<` comparison involving NaN is false, so the source
function returns `false`.  Real-number division by zero in Lean would
instead return `0`, so the NaN case is modelled by the explicit first
conjunct: the check can only trigger when the norm product is nonzero, in
which case the real-valued formula agrees with the idealized `f32`
computation. -/
def triggers_lyon_bug (p0 p1 p2 : ℝ × ℝ) (stroke_radius : ℝ) : Prop :=
  let ray0 := ray p0 p1
  let ray1 := ray p2 p1
  let cos_angle := dotp ray0 ray1 / (Real.sqrt (sqnorm ray0) * Real.sqrt (sqnorm ray1))
  let sqr_cos_half_angle := (cos_angle + 1) / 2
  let sqr_sin_half_angle := (1 - cos_angle) / 2
  let sqr_stroke_radius := stroke_radius * stroke_radius
  Real.sqrt (sqnorm ray0) * Real.sqrt (sqnorm ray1) ≠ 0 ∧
    (sqnorm ray0 * sqr_sin_half_angle < sqr_cos_half_angle * sqr_stroke_radius ∨
      sqnorm ray1 * sqr_sin_half_angle < sqr_cos_half_angle * sqr_stroke_radius)

/-! ## Data model of the per-tick stroke update (`src/drawing.rs`) -/

/-- Polyline points are stored by the source as `Vec2` built from the integer
chalk coordinates (`Vec2::new(chalk.x as f32, chalk.y as f32)`); modelled as
integer pairs. -/
abbrev Pt := ℤ × ℤ

/-- The `Chalk` component (pen state of one drawing actor).  Its struct
declaration lives in the crate root, which is not among the sources here;
the fields are those read by `src/drawing.rs` and written by
`src/local_chalk.rs`, matching the spec's Pen State (§3).  The color is kept
as an opaque token since no claim depends on its representation. -/
structure Chalk where
  x : ℤ
  y : ℤ
  pressed : Bool
  updated : Bool
  just_released : Bool
  color : ℕ
  line_width : ℕ
deriving DecidableEq

/-- `POINTS_CHUNK_THRESHOLD` from `src/drawing.rs` line 9. -/
def POINTS_CHUNK_THRESHOLD : ℕ := 100

/-- The data of one `Completed` path entity as spawned by
`complete_pending_path`: the polyline points, the stroke style copied from
the chalk, and the z (depth) coordinate of its transform. -/
structure CompletedPath where
  points : List Pt
  color : ℕ
  line_width : ℕ
  z : ℚ
deriving DecidableEq

/-- `z_from_time` from `src/drawing.rs` (lines 100–107): the elapsed time in
seconds is mapped to a z (depth) coordinate by the constant step
`MAX_Z / MAX_TIME = 500 / 10000`.  The source computes in `f32`; modelled
over `ℚ`. -/
def z_from_time (t : ℚ) : ℚ :=
  let max_z : ℚ := 500
  let max_time : ℚ := 10000
  let step := max_z / max_time
  t * step

/-- `add_point` from `src/drawing.rs` (lines 95–98): push the current chalk
position onto the polyline. -/
def add_point (points : List Pt) (chalk : Chalk) : List Pt :=
  points ++ [(chalk.x, chalk.y)]

/-- `complete_pending_path` from `src/drawing.rs` (lines 109–143): spawn a
`Completed` entity carrying the current polyline points, the chalk's style
and `z = z_from_time(time)`, then clear the polyline.  Modelled as the pair
(spawned path, cleared buffer). -/
def complete_pending_path (points : List Pt) (chalk : Chalk) (t : ℚ) :
    CompletedPath × List Pt :=
  ({ points := points, color := chalk.color, line_width := chalk.line_width,
     z := z_from_time t }, [])

/-- The last two committed points of a polyline:
`(points[len-2], points[len-1])` when `len >= 2`, `none` otherwise. -/
def lastTwo {α : Type} : List α → Option (α × α)
  | [a, b] => some (a, b)
  | _ :: b :: c :: rest => lastTwo (b :: c :: rest)
  | _ => none

/-- The corner-check dispatch of `update` (`src/drawing.rs` lines 33–41):
the check runs iff the polyline already holds at least two points
(`lastTwo = some`), on the last two committed points, the candidate point
`(chalk.x, chalk.y)` and the stroke radius `line_width / 2`.  The geometric
predicate itself is a parameter `bug` (instantiated with (an idealization
of) `triggers_lyon_bug`), so that the buffer bookkeeping can be reasoned
about for any outcome of the check. -/
def corner_fires (bug : Pt → Pt → Pt → ℚ → Bool) (points : List Pt) (chalk : Chalk) : Bool :=
  match lastTwo points with
  | some (a, b) => bug a b (chalk.x, chalk.y) ((chalk.line_width : ℚ) / 2)
  | none => false

/-- The per-chalk body of the `update` system from `src/drawing.rs`
(lines 22–67), for one tick at elapsed time `t`:

1. if the polyline has at least two points and the corner check fires on
   (last two points, candidate), finalize the current polyline and re-seed
   the cleared buffer with the previous last point (`start_point`);
2. if `chalk.pressed && chalk.updated`, append the candidate point;
3. if the buffer reached `POINTS_CHUNK_THRESHOLD`, or the chalk was just
   released with a non-empty buffer, finalize; after a chunk finalization
   (only) the cleared buffer is re-seeded with the current point.

Returns the new polyline buffer and the list of paths finalized this tick
(in spawn order). -/
def update (bug : Pt → Pt → Pt → ℚ → Bool) (chalk : Chalk) (t : ℚ) (points0 : List Pt) :
    List Pt × List CompletedPath :=
  let updated := chalk.pressed && chalk.updated
  let after_corner :=
    match lastTwo points0 with
    | some (a, b) =>
        if bug a b (chalk.x, chalk.y) ((chalk.line_width : ℚ) / 2) then
          ((complete_pending_path points0 chalk t).2 ++ [b],
            [(complete_pending_path points0 chalk t).1])
        else (points0, ([] : List CompletedPath))
    | none => (points0, [])
  let points1 := after_corner.1
  let done1 := after_corner.2
  let points2 := if updated then add_point points1 chalk else points1
  let chunk_completed := decide (POINTS_CHUNK_THRESHOLD ≤ points2.length)
  let just_released := chalk.just_released && !points2.isEmpty
  let completed := just_released || chunk_completed
  if completed then
    let cleared := (complete_pending_path points2 chalk t).2
    let done2 := done1 ++ [(complete_pending_path points2 chalk t).1]
    let points3 := if chunk_completed then add_point cleared chalk else cleared
    (points3, done2)
  else (points2, done1)

/-- Run `update` over a sequence of ticks, each tick given by the chalk
state and the elapsed time at that tick, accumulating the finalized paths. -/
def runUpdates (bug : Pt → Pt → Pt → ℚ → Bool) :
    List (Chalk × ℚ) → List Pt × List CompletedPath → List Pt × List CompletedPath
  | [], st => st
  | ct :: rest, st =>
      let r := update bug ct.1 ct.2 st.1
      runUpdates bug rest (r.1, st.2 ++ r.2)

/-- `noTriggerRun bug ticks pts = true` states that along the whole run of
`ticks` from buffer `pts` the corner check never fires, i.e. no
corner-artifact split occurs during this stroke. -/
def noTriggerRun (bug : Pt → Pt → Pt → ℚ → Bool) : List (Chalk × ℚ) → List Pt → Bool
  | [], _ => true
  | ct :: rest, pts =>
      !corner_fires bug pts ct.1 && noTriggerRun bug rest (update bug ct.1 ct.2 pts).1

/-- Chalk state on the `i`-th tick of the 250-point continuous stroke of
claim C3: pressed throughout, a fresh position every tick. -/
def c3_press_chalk (i : ℕ) : Chalk :=
  { x := i, y := 0, pressed := true, updated := true, just_released := false,
    color := 0, line_width := 8 }

/-- The 250 pressed ticks of the claim-C3 stroke. -/
def c3_press_ticks : List (Chalk × ℚ) :=
  (List.range 250).map (fun i => (c3_press_chalk i, (i : ℚ)))

/-- The release tick following the claim-C3 stroke: the pen is lifted at the
last position (`just_released` is set by `update_pressed`, and `pressed` is
false on such a tick). -/
def c3_release_chalk : Chalk :=
  { x := 249, y := 0, pressed := false, updated := false, just_released := true,
    color := 0, line_width := 8 }

/-- The full claim-C3 run: 250 pressed ticks then the release tick. -/
def c3_ticks : List (Chalk × ℚ) := c3_press_ticks ++ [(c3_release_chalk, 250)]

/-! ## Input handling (`src/local_chalk.rs`) -/

/-- Mouse buttons, as in `bevy::input::mouse::MouseButton` (only `Left` is
significant to the source). -/
inductive MouseButton
  | left
  | right
  | middle
deriving DecidableEq

/-- Button press state, as in `bevy::input::ButtonState`. -/
inductive ButtonState
  | down
  | up
deriving DecidableEq

/-- A `MouseButtonInput` event. -/
structure MouseButtonInput where
  button : MouseButton
  state : ButtonState
deriving DecidableEq

/-- The per-event match arm of `update_pressed` (`src/local_chalk.rs`
lines 109–126): a left-button press sets `pressed` and clears
`just_released`; a left-button release clears `pressed`; everything else is
ignored. -/
def apply_mouse_event (ch : Chalk) (e : MouseButtonInput) : Chalk :=
  match e.button, e.state with
  | MouseButton.left, ButtonState.down => { ch with just_released := false, pressed := true }
  | MouseButton.left, ButtonState.up => { ch with pressed := false }
  | _, _ => ch

/-- `update_pressed` from `src/local_chalk.rs` (lines 102–129): fold this
tick's mouse-button events over the chalk, then set
`just_released := was_pressed && !pressed` exactly once, from the pressed
state before and after the events. -/
def update_pressed (events : List MouseButtonInput) (chalk : Chalk) : Chalk :=
  let was_pressed := chalk.pressed
  let chalk1 := events.foldl apply_mouse_event chalk
  { chalk1 with just_released := was_pressed && !chalk1.pressed }

/-! ## Canvas buffer lifecycle (`lavagna_pixels/src/lib.rs`) -/

/-- A raster sketch: a `width × height` pixel grid (the `MutSketch` /
`OwnedSketch` view over the frame buffer).  `pixel x y` is the value stored
at column `x`, row `y`; coordinates outside the grid are not drawn. -/
structure Sketch where
  width : ℕ
  height : ℕ
  pixel : ℕ → ℕ → ℕ

/-- Modelled from the spec: `MutSketch::copy_from` of the `lavagna_core`
crate, whose source is not among the files here.  Per spec §4.4 the old
image is copied in "positioned at the origin, clipped to the overlap of old
and new dimensions (no scaling)"; destination pixels not covered by the copy
keep their previous content (the caller zero-fills them first). -/
def copy_from (dst src : Sketch) : Sketch :=
  { dst with
    pixel := fun x y =>
      if x < src.width ∧ y < src.height ∧ x < dst.width ∧ y < dst.height then src.pixel x y
      else dst.pixel x y }

/-- `resize_buffer` from `lavagna_pixels/src/lib.rs` (lines 217–228):
snapshot the current sketch, zero-fill and reallocate the frame at the new
size, then copy the snapshot back in. -/
def resize_buffer (s : Sketch) (new_width new_height : ℕ) : Sketch :=
  let old_sketch := s
  let cleared : Sketch := { width := new_width, height := new_height, pixel := fun _ _ => 0 }
  copy_from cleared old_sketch

/-! ## Clear events (`src/drawing.rs` lines 205–235) -/

/-- One line entity of the drawing world: marker components `Completed` /
`Pending`, the polyline points, and the stroke style. -/
structure LineEntity where
  completed : Bool
  pending : Bool
  points : List Pt
  color : ℕ
  line_width : ℕ
deriving DecidableEq

/-- `ClearEvent` from `src/drawing.rs` (lines 211–224): carries the
must-be-forwarded flag. -/
structure ClearEvent where
  forward : Bool
deriving DecidableEq

/-- `ClearEvent::must_be_forwarded`. -/
def must_be_forwarded (e : ClearEvent) : Bool := e.forward

/-- `despawn_all_completed_lines` from `src/drawing.rs` (lines 205–209):
despawn every entity matching the `With<Completed>` query. -/
def despawn_all_completed_lines (lines : List LineEntity) : List LineEntity :=
  lines.filter (fun l => !l.completed)

/-- `handle_clear_event` from `src/drawing.rs` (lines 226–235): if at least
one `ClearEvent` was read this tick, despawn all completed lines; the
event's forward flag is not consulted here. -/
def handle_clear_event (events : List ClearEvent) (lines : List LineEntity) : List LineEntity :=
  if 0 < events.length then despawn_all_completed_lines lines else lines

/-! ## Helper lemmas -/

lemma sqnorm_nonneg (v : ℝ × ℝ) : 0 ≤ sqnorm v := by
  simp only [sqnorm, dotp]
  nlinarith [sq_nonneg v.1, sq_nonneg v.2]

lemma sqnorm_pos (v : ℝ × ℝ) (h : v ≠ (0, 0)) : 0 < sqnorm v := by
  rcases lt_or_eq_of_le (sqnorm_nonneg v) with hlt | heq
  · exact hlt
  · exfalso
    apply h
    simp only [sqnorm, dotp] at heq
    have h1 : v.1 = 0 := by nlinarith [sq_nonneg v.1, sq_nonneg v.2]
    have h2 : v.2 = 0 := by nlinarith [sq_nonneg v.1, sq_nonneg v.2]
    exact Prod.ext h1 h2

/-! ## Claims C1 and C2: the corner-artifact check -/

/-- C1: for three points forming a right-angle corner (the two rays meeting
at the shared vertex `p1` are nonzero and orthogonal, so `cos_angle = 0`)
and a positive stroke radius `r`: if both adjoining segments are longer than
`r` the check does not trigger, and if both are shorter than `r` it does
trigger. -/
theorem corner_right_angle_check (p0 p1 p2 : ℝ × ℝ) (r : ℝ) (hr : 0 < r)
    (hperp : dotp (ray p0 p1) (ray p2 p1) = 0)
    (h0 : ray p0 p1 ≠ (0, 0)) (h1 : ray p2 p1 ≠ (0, 0)) :
    ((r < Real.sqrt (sqnorm (ray p0 p1)) ∧ r < Real.sqrt (sqnorm (ray p2 p1))) →
      ¬ triggers_lyon_bug p0 p1 p2 r) ∧
    ((Real.sqrt (sqnorm (ray p0 p1)) < r ∧ Real.sqrt (sqnorm (ray p2 p1)) < r) →
      triggers_lyon_bug p0 p1 p2 r) := by
  have hn0 : 0 < sqnorm (ray p0 p1) := sqnorm_pos _ h0
  have hn1 : 0 < sqnorm (ray p2 p1) := sqnorm_pos _ h1
  have hs0 : 0 < Real.sqrt (sqnorm (ray p0 p1)) := Real.sqrt_pos.mpr hn0
  have hs1 : 0 < Real.sqrt (sqnorm (ray p2 p1)) := Real.sqrt_pos.mpr hn1
  have hm0 : Real.sqrt (sqnorm (ray p0 p1)) * Real.sqrt (sqnorm (ray p0 p1))
      = sqnorm (ray p0 p1) := Real.mul_self_sqrt hn0.le
  have hm1 : Real.sqrt (sqnorm (ray p2 p1)) * Real.sqrt (sqnorm (ray p2 p1))
      = sqnorm (ray p2 p1) := Real.mul_self_sqrt hn1.le
  have key : triggers_lyon_bug p0 p1 p2 r ↔
      (sqnorm (ray p0 p1) < r * r ∨ sqnorm (ray p2 p1) < r * r) := by
    simp only [triggers_lyon_bug]
    rw [hperp, zero_div]
    norm_num
    constructor
    · rintro ⟨-, h | h⟩
      · left; linarith
      · right; linarith
    · intro h
      refine ⟨⟨ne_of_gt hs0, ne_of_gt hs1⟩, ?_⟩
      rcases h with h | h
      · left; linarith
      · right; linarith
  constructor
  · rintro ⟨ha, hb⟩ htrig
    rw [key] at htrig
    have ha' : r * r < sqnorm (ray p0 p1) := by
      calc r * r < Real.sqrt (sqnorm (ray p0 p1)) * Real.sqrt (sqnorm (ray p0 p1)) :=
            mul_self_lt_mul_self hr.le ha
        _ = sqnorm (ray p0 p1) := hm0
    have hb' : r * r < sqnorm (ray p2 p1) := by
      calc r * r < Real.sqrt (sqnorm (ray p2 p1)) * Real.sqrt (sqnorm (ray p2 p1)) :=
            mul_self_lt_mul_self hr.le hb
        _ = sqnorm (ray p2 p1) := hm1
    rcases htrig with h | h
    · linarith
    · linarith
  · rintro ⟨ha, hb⟩
    rw [key]
    left
    calc sqnorm (ray p0 p1)
        = Real.sqrt (sqnorm (ray p0 p1)) * Real.sqrt (sqnorm (ray p0 p1)) := hm0.symm
      _ < r * r := mul_self_lt_mul_self (Real.sqrt_nonneg _) ha

/-- Witness for C1: the right-angle corner `(3,0), (0,0), (0,4)` with
segment lengths `3` and `4` and stroke radius `1` does not trigger the
check, while the right-angle corner `(1,0), (0,0), (0,1)` with segment
lengths `1` and stroke radius `2` does. -/
theorem corner_right_angle_check_witness :
    ¬ triggers_lyon_bug (3, 0) (0, 0) (0, 4) 1 ∧ triggers_lyon_bug (1, 0) (0, 0) (0, 1) 2 := by
  have hsq9 : Real.sqrt 9 = 3 := by
    rw [show (9 : ℝ) = 3 ^ 2 by norm_num]
    exact Real.sqrt_sq (by norm_num)
  have hsq16 : Real.sqrt 16 = 4 := by
    rw [show (16 : ℝ) = 4 ^ 2 by norm_num]
    exact Real.sqrt_sq (by norm_num)
  constructor
  · have h := corner_right_angle_check (3, 0) (0, 0) (0, 4) 1 (by norm_num)
      (by norm_num [dotp, ray]) (by norm_num [ray, Prod.ext_iff]) (by norm_num [ray, Prod.ext_iff])
    apply h.1
    constructor
    · rw [show sqnorm (ray (3, 0) (0, 0)) = 9 by norm_num [sqnorm, dotp, ray], hsq9]
      norm_num
    · rw [show sqnorm (ray (0, 4) (0, 0)) = 16 by norm_num [sqnorm, dotp, ray], hsq16]
      norm_num
  · have h := corner_right_angle_check (1, 0) (0, 0) (0, 1) 2 (by norm_num)
      (by norm_num [dotp, ray]) (by norm_num [ray, Prod.ext_iff]) (by norm_num [ray, Prod.ext_iff])
    apply h.2
    constructor
    · rw [show sqnorm (ray (1, 0) (0, 0)) = 1 by norm_num [sqnorm, dotp, ray], Real.sqrt_one]
      norm_num
    · rw [show sqnorm (ray (0, 1) (0, 0)) = 1 by norm_num [sqnorm, dotp, ray], Real.sqrt_one]
      norm_num

/-- C2: for three collinear points whose two segments meet at the shared
vertex in a straight angle of 180 degrees (the ray to `p0` is a negative
multiple of the nonzero ray to `p2`, so `cos_angle = -1`), the check never
triggers, for every segment length and positive stroke radius: straight
strokes are never split. -/
theorem corner_straight_angle_check (p0 p1 p2 : ℝ × ℝ) (r t : ℝ) (hr : 0 < r) (ht : 0 < t)
    (hcol : ray p0 p1 = (-(t * (ray p2 p1).1), -(t * (ray p2 p1).2)))
    (h1 : ray p2 p1 ≠ (0, 0)) :
    ¬ triggers_lyon_bug p0 p1 p2 r := by
  have hn1 : 0 < sqnorm (ray p2 p1) := sqnorm_pos _ h1
  have hsq0 : sqnorm (ray p0 p1) = t * t * sqnorm (ray p2 p1) := by
    rw [hcol]
    simp only [sqnorm, dotp]
    ring
  have hdot : dotp (ray p0 p1) (ray p2 p1) = -(t * sqnorm (ray p2 p1)) := by
    rw [hcol]
    simp only [sqnorm, dotp]
    ring
  have hsqrt0 : Real.sqrt (sqnorm (ray p0 p1)) = t * Real.sqrt (sqnorm (ray p2 p1)) := by
    rw [hsq0, Real.sqrt_mul (mul_self_nonneg t), Real.sqrt_mul_self ht.le]
  have hne : t * sqnorm (ray p2 p1) ≠ 0 := by positivity
  have hcos : dotp (ray p0 p1) (ray p2 p1) /
      (Real.sqrt (sqnorm (ray p0 p1)) * Real.sqrt (sqnorm (ray p2 p1))) = -1 := by
    rw [hdot, hsqrt0, mul_assoc, Real.mul_self_sqrt hn1.le, neg_div, div_self hne]
  intro htrig
  simp only [triggers_lyon_bug] at htrig
  rw [hcos] at htrig
  norm_num at htrig
  rcases htrig with ⟨-, h | h⟩
  · have := sqnorm_nonneg (ray p0 p1)
    linarith
  · linarith

/-- Witness for C2: the collinear points `(-2,0), (0,0), (3,0)` with stroke
radius `1` do not trigger the check. -/
theorem corner_straight_angle_check_witness :
    ¬ triggers_lyon_bug (-2, 0) (0, 0) (3, 0) 1 := by
  have h := corner_straight_angle_check (-2, 0) (0, 0) (3, 0) 1 (2 / 3) (by norm_num)
    (by norm_num) (by norm_num [ray, Prod.ext_iff]) (by norm_num [ray, Prod.ext_iff])
  exact h


/-! ## Helper lemmas about the tick model -/

/-- A list with at least two elements has a last-two pair. -/
lemma lastTwo_cons_cons {α : Type} (a b : α) (rest : List α) :
    ∃ x y, lastTwo (a :: b :: rest) = some (x, y) := by
  induction rest generalizing a b with
  | nil => exact ⟨a, b, rfl⟩
  | cons c rest ih =>
      obtain ⟨x, y, h⟩ := ih b c
      exact ⟨x, y, h⟩

/-- A list without a last-two pair has at most one element. -/
lemma lastTwo_eq_none {α : Type} (pts : List α) (h : lastTwo pts = none) :
    pts = [] ∨ ∃ a, pts = [a] := by
  match pts with
  | [] => exact Or.inl rfl
  | [a] => exact Or.inr ⟨a, rfl⟩
  | a :: b :: rest =>
      obtain ⟨x, y, hsome⟩ := lastTwo_cons_cons a b rest
      rw [hsome] at h
      cases h

/-- Definitional normal form of one `update` tick, convenient for case
analysis (`[] ++ l` and `add_point` unfolded; equal by `rfl`). -/
lemma update_unfold (bug : Pt → Pt → Pt → ℚ → Bool) (c : Chalk) (t : ℚ) (pts : List Pt) :
    update bug c t pts =
      (let ac : List Pt × List CompletedPath :=
        match lastTwo pts with
        | some (a, b) =>
            if bug a b (c.x, c.y) ((c.line_width : ℚ) / 2) then
              (([b] : List Pt), [(complete_pending_path pts c t).1])
            else (pts, [])
        | none => (pts, []);
      let p2 := if c.pressed && c.updated then ac.1 ++ [(c.x, c.y)] else ac.1;
      let chunk := decide (POINTS_CHUNK_THRESHOLD ≤ p2.length);
      if c.just_released && !p2.isEmpty || chunk then
        ((if chunk then ([(c.x, c.y)] : List Pt) else []),
          ac.2 ++ [(complete_pending_path p2 c t).1])
      else (p2, ac.2)) := rfl

/-- Invariant of the tick model: whatever the corner check decides, the
polyline buffer left behind by a tick always has fewer than
`POINTS_CHUNK_THRESHOLD` points (a chunk or release finalization leaves at
most one re-seeded point, and otherwise the chunk condition was false).
Together with the empty initial buffer this justifies assuming
`pts.length < POINTS_CHUNK_THRESHOLD` about any reachable buffer state. -/
lemma update_buffer_stays_small (bug : Pt → Pt → Pt → ℚ → Bool) (c : Chalk) (t : ℚ)
    (pts : List Pt) :
    (update bug c t pts).1.length < POINTS_CHUNK_THRESHOLD := by
  rw [update_unfold]
  cases hlt : lastTwo pts with
  | none =>
      cases hu : (c.pressed && c.updated) <;>
        simp only [hlt, hu, Bool.false_eq_true, if_false, eq_self_iff_true, if_true,
          List.nil_append] <;>
        split <;>
        first
          | (split <;> simp [POINTS_CHUNK_THRESHOLD])
          | (next h =>
              simp only [Bool.or_eq_true, not_or, decide_eq_true_eq] at h
              simp only [List.length_append, List.length_cons, List.length_nil] at h ⊢
              omega)
  | some ab =>
      obtain ⟨a, b⟩ := ab
      cases hb : bug a b (c.x, c.y) ((c.line_width : ℚ) / 2) <;>
        cases hu : (c.pressed && c.updated) <;>
        simp only [hlt, hb, hu, Bool.false_eq_true, if_false, eq_self_iff_true, if_true,
          List.nil_append] <;>
        split <;>
        first
          | (split <;> simp [POINTS_CHUNK_THRESHOLD])
          | (next h =>
              simp only [Bool.or_eq_true, not_or, decide_eq_true_eq] at h
              simp only [List.length_append, List.length_cons, List.length_nil] at h ⊢
              omega)

/-- A tick on which the corner check does not fire behaves exactly like a
tick with the constantly-false check. -/
lemma update_no_fire (bug : Pt → Pt → Pt → ℚ → Bool) (c : Chalk) (t : ℚ) (pts : List Pt)
    (h : corner_fires bug pts c = false) :
    update bug c t pts = update (fun _ _ _ _ => false) c t pts := by
  simp only [corner_fires] at h
  simp only [update]
  cases hlt : lastTwo pts with
  | none => simp [hlt]
  | some ab =>
      obtain ⟨a, b⟩ := ab
      rw [hlt] at h
      simp only at h
      simp [hlt, h]

/-- A whole run on which the corner check never fires coincides with the
run using the constantly-false check. -/
lemma runUpdates_no_trigger (bug : Pt → Pt → Pt → ℚ → Bool) (ticks : List (Chalk × ℚ)) :
    ∀ (pts : List Pt) (done : List CompletedPath),
      noTriggerRun bug ticks pts = true →
      runUpdates bug ticks (pts, done) = runUpdates (fun _ _ _ _ => false) ticks (pts, done) := by
  induction ticks with
  | nil => intro pts done _; rfl
  | cons ct rest ih =>
      intro pts done h
      simp only [noTriggerRun, Bool.and_eq_true, Bool.not_eq_true'] at h
      obtain ⟨h1, h2⟩ := h
      have he := update_no_fire bug ct.1 ct.2 pts h1
      simp only [runUpdates]
      rw [he] at h2 ⊢
      exact ih _ _ h2

/-- No corner split along a run implies none along any prefix of it. -/
lemma noTriggerRun_append (bug : Pt → Pt → Pt → ℚ → Bool) (l1 l2 : List (Chalk × ℚ)) :
    ∀ pts, noTriggerRun bug (l1 ++ l2) pts = true → noTriggerRun bug l1 pts = true := by
  induction l1 with
  | nil => intro pts _; rfl
  | cons ct rest ih =>
      intro pts h
      simp only [List.cons_append, noTriggerRun, Bool.and_eq_true] at h ⊢
      exact ⟨h.1, ih _ h.2⟩

/-! ## Claim C3: chunking of a 250-point continuous stroke -/

set_option maxRecDepth 100000 in
/-- C3: a continuous stroke of 250 points appended while pressed (one tick
each), during which no corner split occurs, finalizes exactly 2 Completed
Paths before release, each of exactly 100 points, and the release tick
finalizes exactly one more containing the remaining 52 buffered points
(the re-seeded chunk-boundary point plus the 51 points appended after the
second chunk). -/
theorem chunking_250_points (bug : Pt → Pt → Pt → ℚ → Bool)
    (hnosplit : noTriggerRun bug c3_ticks [] = true) :
    (runUpdates bug c3_press_ticks ([], [])).2.map (fun p => p.points.length) = [100, 100] ∧
    (runUpdates bug c3_ticks ([], [])).2.map (fun p => p.points.length) = [100, 100, 52] := by
  have hpress : noTriggerRun bug c3_press_ticks [] = true :=
    noTriggerRun_append bug c3_press_ticks [(c3_release_chalk, 250)] [] hnosplit
  constructor
  · rw [runUpdates_no_trigger bug c3_press_ticks [] [] hpress]
    decide
  · rw [runUpdates_no_trigger bug c3_ticks [] [] hnosplit]
    decide

set_option maxRecDepth 100000 in
/-- Witness for C3, instantiated with a corner check that never fires. -/
theorem chunking_250_points_witness :
    noTriggerRun (fun _ _ _ _ => false) c3_ticks [] = true ∧
    ((runUpdates (fun _ _ _ _ => false) c3_press_ticks ([], [])).2.map
        (fun p => p.points.length) = [100, 100] ∧
      (runUpdates (fun _ _ _ _ => false) c3_ticks ([], [])).2.map
        (fun p => p.points.length) = [100, 100, 52]) :=
  ⟨by decide, chunking_250_points (fun _ _ _ _ => false) (by decide)⟩

/-! ## Claim C4: release finalization -/

/-- C4: on a tick with `just_released` true (hence, by `update_pressed`,
`pressed` false — see `just_released_one_tick`) and a reachable buffer
(fewer than `POINTS_CHUNK_THRESHOLD` points — see
`update_buffer_stays_small`), a Completed Path is finalized iff the stroke
point buffer is non-empty, and after the tick the buffer is left empty: no
re-seed point is added. -/
theorem release_finalizes_iff_nonempty (bug : Pt → Pt → Pt → ℚ → Bool) (c : Chalk) (t : ℚ)
    (pts : List Pt) (hjr : c.just_released = true) (hp : c.pressed = false)
    (hlen : pts.length < POINTS_CHUNK_THRESHOLD) :
    ((update bug c t pts).2 ≠ [] ↔ pts ≠ []) ∧ (update bug c t pts).1 = [] := by
  rw [update_unfold]
  have hu : (c.pressed && c.updated) = false := by rw [hp]; rfl
  have hchunk : ¬(POINTS_CHUNK_THRESHOLD ≤ pts.length) := Nat.not_le.mpr hlen
  simp only [POINTS_CHUNK_THRESHOLD] at hchunk
  cases hlt : lastTwo pts with
  | none =>
      rcases lastTwo_eq_none pts hlt with h0 | ⟨a, h0⟩ <;> subst h0 <;>
        simp [hjr, hu, POINTS_CHUNK_THRESHOLD, complete_pending_path]
  | some ab =>
      obtain ⟨a, b⟩ := ab
      have hne : pts ≠ [] := by
        intro h0
        subst h0
        simp [lastTwo] at hlt
      cases hb : bug a b (c.x, c.y) ((c.line_width : ℚ) / 2) <;>
        simp [hlt, hb, hjr, hu, hne, hchunk, complete_pending_path, POINTS_CHUNK_THRESHOLD]

/-- Witness for C4: a release tick over the one-point buffer `[(0,0)]`
finalizes a path and empties the buffer. -/
theorem release_finalizes_iff_nonempty_witness :
    (Chalk.mk 5 5 false false true 0 8).just_released = true ∧
    (Chalk.mk 5 5 false false true 0 8).pressed = false ∧
    ([((0 : ℤ), (0 : ℤ))].length < POINTS_CHUNK_THRESHOLD) ∧
    (((update (fun _ _ _ _ => false) (Chalk.mk 5 5 false false true 0 8) 0
          [((0 : ℤ), (0 : ℤ))]).2 ≠ [] ↔ ([((0 : ℤ), (0 : ℤ))] : List Pt) ≠ []) ∧
      (update (fun _ _ _ _ => false) (Chalk.mk 5 5 false false true 0 8) 0
          [((0 : ℤ), (0 : ℤ))]).1 = []) :=
  ⟨rfl, rfl, by decide,
    release_finalizes_iff_nonempty (fun _ _ _ _ => false) (Chalk.mk 5 5 false false true 0 8) 0
      [((0 : ℤ), (0 : ℤ))] rfl rfl (by decide)⟩

/-! ## Claim C5: the dispatch guard of the corner check -/

/-- C5 (refuting the claimed guard): `update` invokes the corner check
whenever the buffer already holds at least two points — there is no check
that the candidate point differs from the last committed point.  With
buffer `[(0,0), (1,0)]` and a pressed but not-updated chalk resting at
`(1,0)` (a stationary cursor), the check is reached — its outcome decides
whether a split path is finalized — with candidate equal to the last
committed point, i.e. a zero-length segment: in the real-valued geometry
the norm product `|ray0| * |ray1|` is `0`, so the source's `cos_angle`
division is a division by zero (NaN in `f32`), under whose semantics the
check returns false; the 3-point length assertion itself always holds since
the call site passes exactly three points. -/
theorem corner_check_invoked_on_degenerate_segment :
    lastTwo [((0 : ℤ), (0 : ℤ)), (1, 0)] = some ((0, 0), (1, 0)) ∧
    (Chalk.mk 1 0 true false false 0 8).x = 1 ∧ (Chalk.mk 1 0 true false false 0 8).y = 0 ∧
    (update (fun _ _ _ _ => true) (Chalk.mk 1 0 true false false 0 8) 0
        [((0 : ℤ), (0 : ℤ)), (1, 0)]).2.length = 1 ∧
    (update (fun _ _ _ _ => false) (Chalk.mk 1 0 true false false 0 8) 0
        [((0 : ℤ), (0 : ℤ)), (1, 0)]).2.length = 0 ∧
    Real.sqrt (sqnorm (ray ((0 : ℝ), 0) ((1 : ℝ), 0))) *
        Real.sqrt (sqnorm (ray ((1 : ℝ), 0) ((1 : ℝ), 0))) = 0 ∧
    ¬ triggers_lyon_bug ((0 : ℝ), 0) ((1 : ℝ), 0) ((1 : ℝ), 0) 4 := by
  refine ⟨by decide, rfl, rfl, by decide, by decide, ?_, ?_⟩
  · rw [show sqnorm (ray ((1 : ℝ), 0) ((1 : ℝ), 0)) = 0 by norm_num [sqnorm, dotp, ray]]
    rw [Real.sqrt_zero]
    ring
  · intro htrig
    simp only [triggers_lyon_bug] at htrig
    apply htrig.1
    rw [show sqnorm (ray ((1 : ℝ), 0) ((1 : ℝ), 0)) = 0 by norm_num [sqnorm, dotp, ray]]
    rw [Real.sqrt_zero, mul_zero]

/-! ## Claims C6 and C7: the depth function -/

/-- C6: the depth assigned at finalization is strictly increasing in
elapsed time: of any two strokes finalized at timestamps `t1 < t2`, the
second receives the strictly greater depth, whatever their points and
styles. -/
theorem depth_strictly_increasing (pts1 pts2 : List Pt) (c1 c2 : Chalk) (t1 t2 : ℚ)
    (h : t1 < t2) :
    (complete_pending_path pts1 c1 t1).1.z < (complete_pending_path pts2 c2 t2).1.z := by
  simp only [complete_pending_path, z_from_time]
  have hstep : (0 : ℚ) < 500 / 10000 := by norm_num
  exact mul_lt_mul_of_pos_right h hstep

/-- Witness for C6 at timestamps `1 < 2`. -/
theorem depth_strictly_increasing_witness :
    (1 : ℚ) < 2 ∧
      (complete_pending_path [] (Chalk.mk 0 0 false false false 0 8) 1).1.z <
        (complete_pending_path [] (Chalk.mk 0 0 false false false 0 8) 2).1.z :=
  ⟨by norm_num,
    depth_strictly_increasing [] [] (Chalk.mk 0 0 false false false 0 8)
      (Chalk.mk 0 0 false false false 0 8) 1 2 (by norm_num)⟩

/-- Counterexample to C7 as stated: there is no rolling window in
`z_from_time` — at elapsed time `20000` the depth is `1000`, beyond the
claimed `0`–`500` range. -/
theorem depth_exceeds_bound : 500 < z_from_time 20000 := by
  norm_num [z_from_time]

/-- C7 (amended): the depth function maps elapsed time linearly with step
`500 / 10000`, and its value lies within `0`–`500` exactly for elapsed
times in the first `10000`-unit window; beyond it the value keeps growing
(see `depth_exceeds_bound`), there is no rolling window. -/
theorem depth_bounded_on_window (t : ℚ) (h0 : 0 ≤ t) (h1 : t ≤ 10000) :
    0 ≤ z_from_time t ∧ z_from_time t ≤ 500 := by
  simp only [z_from_time]
  constructor
  · positivity
  · nlinarith

/-- Witness for the amended C7 at elapsed time `300`. -/
theorem depth_bounded_on_window_witness :
    (0 : ℚ) ≤ 300 ∧ (300 : ℚ) ≤ 10000 ∧ (0 ≤ z_from_time 300 ∧ z_from_time 300 ≤ 500) :=
  ⟨by norm_num, by norm_num, depth_bounded_on_window 300 (by norm_num) (by norm_num)⟩

/-! ## Claim C8: canvas resize -/

/-- C8: after a resize the pixels of the region where old and new bounds
overlap are preserved and pixels outside the old bounds are zero; in
particular resizing a `10 × 10` buffer to `20 × 20` and back to `10 × 10`
leaves every pixel of the original region bit-identical. -/
theorem resize_buffer_preserves_pixels (s : Sketch) (w h x y : ℕ) :
    (x < s.width → y < s.height → x < w → y < h →
      (resize_buffer s w h).pixel x y = s.pixel x y) ∧
    ((s.width ≤ x ∨ s.height ≤ y) → (resize_buffer s w h).pixel x y = 0) ∧
    (s.width = 10 → s.height = 10 → x < 10 → y < 10 →
      (resize_buffer (resize_buffer s 20 20) 10 10).pixel x y = s.pixel x y) := by
  refine ⟨?_, ?_, ?_⟩
  · intro h1 h2 h3 h4
    simp only [resize_buffer, copy_from]
    rw [if_pos ⟨h1, h2, h3, h4⟩]
  · intro hout
    simp only [resize_buffer, copy_from]
    rw [if_neg]
    intro hcond
    obtain ⟨c1, c2, -, -⟩ := hcond
    rcases hout with hx | hy
    · omega
    · omega
  · intro hw hh hx hy
    simp only [resize_buffer, copy_from]
    rw [if_pos ⟨by omega, by omega, hx, hy⟩, if_pos ⟨by omega, by omega, by omega, by omega⟩]

/-- Witness for C8: a `10 × 10` sketch with a single pixel set at `(5,5)`,
resized to `20 × 20` and back, keeps that pixel; a freshly exposed pixel
such as `(15,3)` is zero. -/
theorem resize_buffer_preserves_pixels_witness :
    (resize_buffer (Sketch.mk 10 10 (fun x y => if x = 5 ∧ y = 5 then 1 else 0)) 20 20).pixel 5 5 =
        (Sketch.mk 10 10 (fun x y => if x = 5 ∧ y = 5 then 1 else 0)).pixel 5 5 ∧
    (resize_buffer (Sketch.mk 10 10 (fun x y => if x = 5 ∧ y = 5 then 1 else 0)) 20 20).pixel
        15 3 = 0 ∧
    (resize_buffer
        (resize_buffer (Sketch.mk 10 10 (fun x y => if x = 5 ∧ y = 5 then 1 else 0)) 20 20)
        10 10).pixel 5 5 =
      (Sketch.mk 10 10 (fun x y => if x = 5 ∧ y = 5 then 1 else 0)).pixel 5 5 ∧
    (Sketch.mk 10 10 (fun x y => if x = 5 ∧ y = 5 then 1 else 0)).pixel 5 5 = 1 :=
  ⟨(resize_buffer_preserves_pixels (Sketch.mk 10 10 (fun x y => if x = 5 ∧ y = 5 then 1 else 0))
      20 20 5 5).1 (by norm_num) (by norm_num) (by norm_num) (by norm_num),
    (resize_buffer_preserves_pixels (Sketch.mk 10 10 (fun x y => if x = 5 ∧ y = 5 then 1 else 0))
      20 20 15 3).2.1 (Or.inl (by norm_num)),
    (resize_buffer_preserves_pixels (Sketch.mk 10 10 (fun x y => if x = 5 ∧ y = 5 then 1 else 0))
      20 20 5 5).2.2 rfl rfl (by norm_num) (by norm_num),
    by norm_num⟩

/-! ## Claim C9: `just_released` lasts exactly one tick -/

/-- C9: after any tick, `just_released` holds iff the chalk was pressed
before the tick's events and unpressed after them (it is recomputed as
`was_pressed && !pressed` exactly once per tick, never persisted); and on
any tick following one that left the chalk unpressed — in particular the
tick after the release — `just_released` is false again, so it is true for
exactly the single true-to-false transition tick of a press-release
cycle. -/
theorem just_released_one_tick (events : List MouseButtonInput) (c : Chalk) :
    ((update_pressed events c).just_released = true ↔
      (c.pressed = true ∧ (update_pressed events c).pressed = false)) ∧
    (∀ events2 : List MouseButtonInput,
      (update_pressed events c).pressed = false →
        (update_pressed events2 (update_pressed events c)).just_released = false) := by
  have key : ∀ (evs : List MouseButtonInput) (ch : Chalk),
      (update_pressed evs ch).just_released =
        (ch.pressed && !(update_pressed evs ch).pressed) := by
    intro evs ch
    rfl
  constructor
  · rw [key]
    simp [Bool.and_eq_true]
  · intro events2 hpf
    rw [key, hpf]
    simp

/-- Witness for C9: a full press-release cycle — press tick, release tick,
idle tick — shows `just_released` true exactly on the release tick and
false again on the next. -/
theorem just_released_one_tick_witness :
    (update_pressed [MouseButtonInput.mk MouseButton.left ButtonState.up]
        (update_pressed [MouseButtonInput.mk MouseButton.left ButtonState.down]
          (Chalk.mk 0 0 false false false 0 8))).just_released = true ∧
    (update_pressed []
        (update_pressed [MouseButtonInput.mk MouseButton.left ButtonState.up]
          (update_pressed [MouseButtonInput.mk MouseButton.left ButtonState.down]
            (Chalk.mk 0 0 false false false 0 8)))).just_released = false :=
  ⟨(just_released_one_tick [MouseButtonInput.mk MouseButton.left ButtonState.up]
      (update_pressed [MouseButtonInput.mk MouseButton.left ButtonState.down]
        (Chalk.mk 0 0 false false false 0 8))).1.mpr ⟨by decide, by decide⟩,
    (just_released_one_tick [MouseButtonInput.mk MouseButton.left ButtonState.up]
      (update_pressed [MouseButtonInput.mk MouseButton.left ButtonState.down]
        (Chalk.mk 0 0 false false false 0 8))).2 [] (by decide)⟩

/-! ## Claim C10: clear removes only completed lines -/

/-- C10: handling clear events removes only entities marked `Completed`:
the sublist of non-completed entities (the per-actor `Pending` lines with
their point sequences and styles) is left exactly unchanged, whatever the
events' forward flags, and nothing is ever added. -/
theorem clear_preserves_non_completed (events : List ClearEvent) (lines : List LineEntity) :
    (handle_clear_event events lines).filter (fun l => !l.completed) =
      lines.filter (fun l => !l.completed) ∧
    (handle_clear_event events lines).Sublist lines := by
  simp only [handle_clear_event, despawn_all_completed_lines]
  split
  · exact ⟨List.filter_filter .. ▸ by simp, List.filter_sublist lines⟩
  · exact ⟨rfl, List.Sublist.refl lines⟩
